import Mathlib

/-!
# Verification of the bonsai-app maintenance-notification scheduler

Shallow embedding of the client-side maintenance-notification scheduler:

* `src/src/utils/notifications.ts` — the `MAINTENANCE_SCHEDULES` table.
* `src/src/services/notificationService.ts` (first revision in the file, the
  one the schedule-calculation claims cite) — `updateMaintenanceSchedule`:
  timer bookkeeping, next-due computation, the catch-up loop, the 1000 ms
  safety guard and the fire callback.
* `src/public/notification-worker.js` — the `notificationclick` handler
  ("done" / "snooze" actions).
* `src/src/store/bonsaiStore.ts` `deleteTree` and the auth store `logout` —
  neither touches the timer registry.

Instants are modelled as `Int` milliseconds since the epoch, with a
fixed-offset (UTC) civil calendar: JavaScript's
`setHours h / setMinutes m / setSeconds 0 / setMilliseconds 0` on a `Date`
becomes `snapToTime`: the start of the instant's day plus `h` hours and
`m` minutes.
-/

namespace BonsaiApp

/-- Maintenance categories, from `src/src/types` (used as the keys of
`MAINTENANCE_SCHEDULES` in `src/src/utils/notifications.ts`). -/
inductive MaintenanceType
  | watering
  | fertilizing
  | pruning
  | wiring
  | repotting
  | other
deriving DecidableEq, Repr

/-- One entry of the schedule table: recurrence interval in milliseconds and
the reminder message (`NotificationSchedule` in
`src/src/utils/notifications.ts` lines 5–9; the `type` field is the lookup
key and is kept implicit). -/
structure NotificationSchedule where
  interval : Int
  message : String
deriving DecidableEq, Repr

/-- `MAINTENANCE_SCHEDULES` from `src/src/utils/notifications.ts`
lines 11–42: fixed intervals of 2, 14, 30, 60, 365 and 7 days in
milliseconds. -/
def MAINTENANCE_SCHEDULES : MaintenanceType → NotificationSchedule
  | .watering    => ⟨2 * 24 * 60 * 60 * 1000, "Time to check if your bonsai needs water"⟩
  | .fertilizing => ⟨14 * 24 * 60 * 60 * 1000, "Your bonsai may need fertilizing"⟩
  | .pruning     => ⟨30 * 24 * 60 * 60 * 1000, "Time to check if your bonsai needs pruning"⟩
  | .wiring      => ⟨60 * 24 * 60 * 60 * 1000, "Check your bonsai's wiring"⟩
  | .repotting   => ⟨365 * 24 * 60 * 60 * 1000, "Consider repotting your bonsai"⟩
  | .other       => ⟨7 * 24 * 60 * 60 * 1000, "Time for bonsai maintenance check"⟩

/-- The `notificationTime` argument of `updateMaintenanceSchedule`:
`{ hours: number; minutes: number }`. -/
structure TimeOfDay where
  hours : Nat
  minutes : Nat
deriving DecidableEq, Repr

/-- Milliseconds in one day. -/
def dayMs : Int := 24 * 60 * 60 * 1000

/-- JavaScript `d.setHours(h); d.setMinutes(m); d.setSeconds(0);
d.setMilliseconds(0)` under a fixed-offset clock: keep the civil day of `t`
(floor division by `dayMs`) and set the clock time to `h:m:00.000`. -/
def snapToTime (t : Int) (tod : TimeOfDay) : Int :=
  (Int.fdiv t dayMs) * dayMs + (tod.hours : Int) * 3600000 + (tod.minutes : Int) * 60000

/-- Fuelled body of the catch-up loop of `updateMaintenanceSchedule`
(`src/src/services/notificationService.ts` lines 163–172):
`while (nextDate <= now) nextDate += interval`.  The fuel is an upper bound
on the number of iterations; `catchUpLoop` supplies a bound that is proved
sufficient whenever the interval is positive (`catchUpLoopAux_gt`), so the
fuel never runs out on the schedules of this program. -/
def catchUpLoopAux : Nat → Int → Int → Int → Int
  | 0, _, _, next => next
  | fuel + 1, interval, now, next =>
      if next ≤ now then catchUpLoopAux fuel interval now (next + interval) else next

/-- The catch-up loop: starting from `next`, add `interval` while the
candidate is not strictly after `now`.  Each iteration advances the
candidate by at least 1 ms when `0 < interval`, so `(now + 1 - next).toNat`
iterations always suffice. -/
def catchUpLoop (interval now next : Int) : Int :=
  catchUpLoopAux (now + 1 - next).toNat interval now next

/-- Next-due computation of `updateMaintenanceSchedule`
(`src/src/services/notificationService.ts` lines 134–172), up to but not
including the 1000 ms safety guard:

* base date: `lastPerformed` when given, otherwise today snapped to the
  preferred time minus one interval (lines 135–154);
* candidate: base plus one interval, snapped to the preferred time
  (lines 157–161);
* catch-up loop until the candidate is strictly after `now`
  (lines 163–172).

`notificationTime?.hours ?? 9` / `notificationTime?.minutes ?? 0` is the
`Option.getD` default of 09:00. -/
def computeNextDueRaw (interval : Int) (lastPerformed : Option Int)
    (notificationTime : Option TimeOfDay) (now : Int) : Int :=
  let tod := notificationTime.getD ⟨9, 0⟩
  let baseDate : Int :=
    match lastPerformed with
    | some lp => lp
    | none => snapToTime now tod - interval
  let nextDate := snapToTime (baseDate + interval) tod
  catchUpLoop interval now nextDate

/-- Full next-due computation including the safety guard of
`src/src/services/notificationService.ts` lines 186–192: if
`timeUntilNotification <= 1000` add one more interval. -/
def computeNextDue (interval : Int) (lastPerformed : Option Int)
    (notificationTime : Option TimeOfDay) (now : Int) : Int :=
  let nextDate := computeNextDueRaw interval lastPerformed notificationTime now
  if nextDate - now ≤ 1000 then nextDate + interval else nextDate

/-- The instant `updateMaintenanceSchedule` arms for maintenance type `ty`:
`computeNextDue` applied to that type's configured interval. -/
def updateNextDue (ty : MaintenanceType) (lastPerformed : Option Int)
    (notificationTime : Option TimeOfDay) (now : Int) : Int :=
  computeNextDue (MAINTENANCE_SCHEDULES ty).interval lastPerformed notificationTime now

/-- String name of a maintenance type, as used in the template literal
`` `${treeId}-${type}` ``. -/
def maintenanceTypeKey : MaintenanceType → String
  | .watering => "watering"
  | .fertilizing => "fertilizing"
  | .pruning => "pruning"
  | .wiring => "wiring"
  | .repotting => "repotting"
  | .other => "other"

/-- The composite timer key `` `${treeId}-${type}` `` of
`src/src/services/notificationService.ts` line 107. -/
def timerKey (treeId : String) (ty : MaintenanceType) : String :=
  treeId ++ "-" ++ maintenanceTypeKey ty

/-- State of the timer registry (`notificationTimers` record of the
`NotificationService` class).  A `setTimeout` handle is modelled as a `Nat`
drawn from the counter `nextId`; an entry `(key, id, due)` is a pending
timer for `key` scheduled at instant `due`.  `cancelled` records every
handle passed to `clearTimeout`: a cleared handle's callback never runs, so
a timer "fires" only while its handle is in `timers`. -/
structure RegState where
  timers : List (String × Nat × Int)
  nextId : Nat
  cancelled : List Nat
deriving DecidableEq, Repr

/-- The pending timers for `key`: the JS record holds at most one binding
per key, so after any entry-point call this list has at most one element. -/
def pendingFor (s : RegState) (key : String) : List (Nat × Int) :=
  (s.timers.filter (fun e => e.1 == key)).map (fun e => e.2)

/-- A handle is live (its callback can still run) while it is present in the
registry. -/
def handleLive (s : RegState) (id : Nat) : Bool :=
  s.timers.any (fun e => e.2.1 == id)

/-- Well-formedness: every live handle was allocated before `nextId`.  Holds
for every state reachable from the initial empty registry. -/
def freshIds (s : RegState) : Bool :=
  s.timers.all (fun e => e.2.1 < s.nextId)

/-- Lines 110–114 of `src/src/services/notificationService.ts`: if a timer
is registered under `key`, `clearTimeout` it and delete the binding. -/
def clearExistingTimer (s : RegState) (key : String) : RegState :=
  { timers := s.timers.filter (fun e => !(e.1 == key))
    nextId := s.nextId
    cancelled := s.cancelled ++ (s.timers.filter (fun e => e.1 == key)).map (fun e => e.2.1) }

/-- Line 207: `this.notificationTimers[key] = setTimeout(...)` — allocate a
fresh handle for `key` due at `due`. -/
def armTimer (s : RegState) (key : String) (due : Int) : RegState :=
  { timers := (key, s.nextId, due) :: s.timers
    nextId := s.nextId + 1
    cancelled := s.cancelled }

/-- The registry-visible behaviour of `updateMaintenanceSchedule`
(`src/src/services/notificationService.ts` lines 78–266):

1. `ensureInitialized` (line 105) — throws when initialization failed
   (`initOk = false` models a platform without the Notification API);
2. clear any existing timer for the key (lines 110–114);
3. `enabled = false`: return, leaving the key unarmed (lines 116–119);
4. permission not granted: throw (lines 121–123);
5. otherwise arm a fresh timer (line 207).

The delay handed to `setTimeout` is `timeUntilNotification`, a `const`
computed at line 174 — BEFORE the 1000 ms safety guard of lines 186–192.
The guard reassigns only `nextDate`; line 259 still passes the pre-guard
constant.  So the armed timer fires at `now + timeUntilNotification`,
which is `computeNextDueRaw`'s instant; the post-guard `nextDate`
(`computeNextDue`) is only logged and carried into the callback as the next
cycle's `lastPerformed` (lines 248–255).

`Except.error` models a thrown exception (the outer `catch` re-throws,
line 264). -/
def updateMaintenanceSchedule (initOk : Bool) (s : RegState) (treeId : String)
    (ty : MaintenanceType) (enabled : Bool) (lastPerformed : Option Int)
    (notificationTime : Option TimeOfDay) (permissionGranted : Bool) (now : Int) :
    Except String RegState :=
  if !initOk then .error "This browser does not support notifications"
  else
    let key := timerKey treeId ty
    let s1 := clearExistingTimer s key
    if !enabled then .ok s1
    else if !permissionGranted then .error "Notification permission required"
    else
      .ok (armTimer s1 key
        (computeNextDueRaw (MAINTENANCE_SCHEDULES ty).interval lastPerformed
          notificationTime now))

/-- Observable outcome of one run of the timer callback. -/
structure FireOutcome where
  shown : Bool
  rearmed : Bool
deriving DecidableEq, Repr

/-- The timer callback of `src/src/services/notificationService.ts`
lines 207–259.  `expectedDelay` is `timeUntilNotification`, `actualDelay`
the measured elapsed time, `presentOk` whether the `showNotification` call
succeeds (a `false` models the call throwing, caught at lines 256–258):

* fired more than 1000 ms early (line 218): `return` — nothing shown and,
  because the re-arm call at lines 248–255 sits after the `return`, nothing
  re-armed;
* presentation throws: control jumps to the `catch`, skipping the re-arm;
* presentation succeeds: notification shown, then
  `updateMaintenanceSchedule` re-arms the next cycle. -/
def fireCallback (expectedDelay actualDelay : Int) (presentOk : Bool) : FireOutcome :=
  if actualDelay < expectedDelay - 1000 then ⟨false, false⟩
  else if presentOk then ⟨true, true⟩
  else ⟨false, false⟩

/-- The bare store function `deleteTree` (`src/src/store/bonsaiStore.ts`
lines 320–337), the `onDelete` callback of the deletion flow: it deletes
the Firestore document and waits for pending writes; it contains no call
into the notification service, so its own effect on the timer registry is
the identity.  The full UI deletion flow, which cancels timers before
invoking it, is `handleDeleteFlow`. -/
def deleteTreeTimerEffect (s : RegState) : RegState := s

/-- The list of the six maintenance types (the keys of a tree's
`notifications` object). -/
def allMaintenanceTypes : List MaintenanceType :=
  [.watering, .fertilizing, .pruning, .wiring, .repotting, .other]

/-- The per-type loop of `EditTreeForm.handleDelete`
(`src/src/components/EditTreeForm.tsx` lines 119–143): for each listed
type, `await updateMaintenanceSchedule(tree.id, tree.name, type, false,
undefined, formData.notificationSettings)`; a per-type failure is caught
and logged, leaving the registry as the failing call left it. -/
def disableTypesFold (initOk : Bool) (treeId : String) (tod : Option TimeOfDay)
    (perm : Bool) (now : Int) : RegState → List MaintenanceType → RegState
  | s, [] => s
  | s, ty :: rest =>
      disableTypesFold initOk treeId tod perm now
        (match updateMaintenanceSchedule initOk s treeId ty false none tod perm now with
         | .ok s' => s'
         | .error _ => s) rest

/-- The repository's tree-deletion flow, `EditTreeForm.handleDelete`
(`src/src/components/EditTreeForm.tsx` lines 114–153): first disable every
enabled maintenance type of the tree — cancelling its pending timer — and
only then run the store's `deleteTree` (`onDelete`), which does not touch
the registry. -/
def handleDeleteFlow (initOk : Bool) (s : RegState) (treeId : String)
    (treeNotifications : MaintenanceType → Bool) (notificationSettings : Option TimeOfDay)
    (perm : Bool) (now : Int) : RegState :=
  deleteTreeTimerEffect
    (disableTypesFold initOk treeId notificationSettings perm now s
      (allMaintenanceTypes.filter (fun ty => treeNotifications ty)))

/-- `logout` of the auth store calls `signOut(auth)` and resets the user
state; it contains no call into the notification service, so its effect on
the timer registry is the identity. -/
def logoutTimerEffect (s : RegState) : RegState := s

/-- `clearAllTimers` (`src/src/services/notificationService.ts`
lines 268–271): `clearTimeout` every stored handle, then reset the record.
The method is `private` and has no call site anywhere in the sources. -/
def clearAllTimers (s : RegState) : RegState :=
  { timers := []
    nextId := s.nextId
    cancelled := s.cancelled ++ s.timers.map (fun e => e.2.1) }

/-- A notification as the service worker sees it: `title`, `tag`, `body`,
the optional `{ treeId, type }` data payload, and an optional `showTrigger`
timestamp.  `data = none` models an absent payload, `body = ""` the
browser's default empty body. -/
structure SWNotification where
  title : String
  tag : String
  body : String
  data : Option (String × MaintenanceType)
  showTriggerAt : Option Int
deriving DecidableEq, Repr

/-- A `postMessage` from the worker to a client
(`src/public/notification-worker.js` lines 29–33); `data` is the clicked
notification's payload, possibly absent. -/
structure ClientMessage where
  msgType : String
  data : Option (String × MaintenanceType)
  notificationTag : String
deriving DecidableEq, Repr

/-- The `notificationclick` handler of `src/public/notification-worker.js`
lines 9–48.  Returns the notifications (re-)presented and the messages
posted to clients:

* `"snooze"` (lines 13–23): `showNotification(notification.title,
  { ...notification.options, showTrigger: ..., tag: notification.tag })`.
  A `Notification` object has no `options` property, so the spread is of
  `undefined` and contributes nothing: the re-shown notification keeps only
  the explicitly passed title, tag and trigger — its body is empty and its
  data payload and action buttons are absent.  No client message is posted;
* `"done"` (lines 24–36): post `MAINTENANCE_DONE` with the notification's
  data to every client; nothing is re-shown from the worker;
* any other click (lines 37–47): focus or open the app window. -/
def notificationClick (n : SWNotification) (action : String) (now : Int) :
    List SWNotification × List ClientMessage :=
  if action == "snooze" then
    ([⟨n.title, n.tag, "", none, some (now + 60 * 60 * 1000)⟩], [])
  else if action == "done" then
    ([], [⟨"MAINTENANCE_DONE", n.data, n.tag⟩])
  else
    ([], [])

/-- The application-side `message` listener (`src/src/App.tsx`
lines 157–176): each `MAINTENANCE_DONE` message whose payload carries a
`treeId` and a `type` records a maintenance log, which sets that tree/type's
`lastPerformed` to the completion instant; a message without a payload is
ignored (the `data?.treeId && data?.type` check).  The store is abstracted
as a map from timer key to optional `lastPerformed`. -/
def applyWorkerMessages (store : String → Option Int) (completedAt : Int) :
    List ClientMessage → (String → Option Int)
  | [] => store
  | m :: ms =>
      let store' :=
        if m.msgType == "MAINTENANCE_DONE" then
          match m.data with
          | some (treeId, ty) =>
              fun k => if k == timerKey treeId ty then some completedAt else store k
          | none => store
        else store
      applyWorkerMessages store' completedAt ms

/-! ## Schedule-calculator lemmas -/

theorem interval_pos (ty : MaintenanceType) : 0 < (MAINTENANCE_SCHEDULES ty).interval := by
  cases ty <;> decide

theorem interval_large (ty : MaintenanceType) : 1000 < (MAINTENANCE_SCHEDULES ty).interval := by
  cases ty <;> decide

/-- With positive interval and sufficient fuel, the loop body exits strictly
after `now`. -/
theorem catchUpLoopAux_gt (interval now : Int) (hI : 0 < interval) :
    ∀ (fuel : Nat) (next : Int), (now + 1 - next).toNat ≤ fuel →
      now < catchUpLoopAux fuel interval now next := by
  intro fuel
  induction fuel with
  | zero =>
      intro next hb
      simp only [catchUpLoopAux]
      omega
  | succ f ih =>
      intro next hb
      simp only [catchUpLoopAux]
      by_cases h : next ≤ now
      · rw [if_pos h]
        exact ih (next + interval) (by omega)
      · rw [if_neg h]
        omega

/-- The catch-up loop always lands strictly after `now` when the interval is
positive. -/
theorem catchUpLoop_gt (interval now next : Int) (hI : 0 < interval) :
    now < catchUpLoop interval now next :=
  catchUpLoopAux_gt interval now hI _ next (Nat.le_refl _)

/-- Whenever the starting candidate is already strictly future, the loop
returns it unchanged. -/
theorem catchUpLoop_of_gt (interval now next : Int) (h : ¬ next ≤ now) :
    catchUpLoop interval now next = next := by
  unfold catchUpLoop
  have : (now + 1 - next).toNat = 0 := by omega
  rw [this]
  rfl

/-- Any two sufficient fuels compute the same result. -/
theorem catchUpLoopAux_stable (interval now : Int) (hI : 0 < interval) :
    ∀ (f₁ f₂ : Nat) (next : Int), (now + 1 - next).toNat ≤ f₁ →
      (now + 1 - next).toNat ≤ f₂ →
      catchUpLoopAux f₁ interval now next = catchUpLoopAux f₂ interval now next := by
  intro f₁
  induction f₁ with
  | zero =>
      intro f₂ next h₁ h₂
      have hgt : ¬ next ≤ now := by omega
      cases f₂ with
      | zero => rfl
      | succ g => simp only [catchUpLoopAux, if_neg hgt]
  | succ f ih =>
      intro f₂ next h₁ h₂
      by_cases h : next ≤ now
      · have hb : (1 : Int) ≤ now + 1 - next := by omega
        cases f₂ with
        | zero => omega
        | succ g =>
            simp only [catchUpLoopAux, if_pos h]
            exact ih g (next + interval) (by omega) (by omega)
      · cases f₂ with
        | zero => simp only [catchUpLoopAux, if_neg h]
        | succ g => simp only [catchUpLoopAux, if_neg h]

/-- The loop satisfies the recurrence of the source `while` loop: this is
exactly the statement that the loop's semantics is a well-defined total
function when the interval is positive. -/
theorem catchUpLoop_recurrence (interval now next : Int) (hI : 0 < interval) :
    catchUpLoop interval now next =
      if next ≤ now then catchUpLoop interval now (next + interval) else next := by
  by_cases h : next ≤ now
  · rw [if_pos h]
    unfold catchUpLoop
    have hb : (1 : Int) ≤ now + 1 - next := by omega
    have hsplit : (now + 1 - next).toNat = ((now + 1 - next).toNat - 1) + 1 := by omega
    rw [hsplit]
    simp only [catchUpLoopAux, if_pos h]
    exact catchUpLoopAux_stable interval now hI _ _ (next + interval) (by omega) (by omega)
  · rw [if_neg h]
    exact catchUpLoop_of_gt interval now next h

/-- The raw (pre-guard) next-due instant is strictly future. -/
theorem computeNextDueRaw_gt (interval : Int) (lastPerformed : Option Int)
    (notificationTime : Option TimeOfDay) (now : Int) (hI : 0 < interval) :
    now < computeNextDueRaw interval lastPerformed notificationTime now := by
  unfold computeNextDueRaw
  exact catchUpLoop_gt _ _ _ hI

/-- The final next-due instant is strictly future. -/
theorem computeNextDue_gt (interval : Int) (lastPerformed : Option Int)
    (notificationTime : Option TimeOfDay) (now : Int) (hI : 0 < interval) :
    now < computeNextDue interval lastPerformed notificationTime now := by
  unfold computeNextDue
  have h := computeNextDueRaw_gt interval lastPerformed notificationTime now hI
  by_cases hg : computeNextDueRaw interval lastPerformed notificationTime now - now ≤ 1000
  · simp only [if_pos hg]
    omega
  · simp only [if_neg hg]
    exact h

/-! ## Timer-registry lemmas -/

theorem filter_eq_key_of_filter_ne (l : List (String × Nat × Int)) (k : String) :
    (l.filter (fun e => !(e.1 == k))).filter (fun e => e.1 == k) = [] := by
  induction l with
  | nil => rfl
  | cons a t ih =>
      cases hak : (a.1 == k) with
      | false => simp [List.filter_cons, hak, ih]
      | true => simp [List.filter_cons, hak, ih]

theorem filter_ne_key_idem (l : List (String × Nat × Int)) (k : String) :
    (l.filter (fun e => !(e.1 == k))).filter (fun e => !(e.1 == k))
      = l.filter (fun e => !(e.1 == k)) := by
  induction l with
  | nil => rfl
  | cons a t ih =>
      cases hak : (a.1 == k) with
      | false => simp [List.filter_cons, hak, ih]
      | true => simp [List.filter_cons, hak, ih]

theorem pendingFor_clear (s : RegState) (k : String) :
    pendingFor (clearExistingTimer s k) k = [] := by
  simp [pendingFor, clearExistingTimer, filter_eq_key_of_filter_ne]

theorem clear_clear (s : RegState) (k : String) :
    clearExistingTimer (clearExistingTimer s k) k = clearExistingTimer s k := by
  simp [clearExistingTimer, filter_ne_key_idem, filter_eq_key_of_filter_ne]

theorem filter_ne_arm_clear (s : RegState) (k : String) (d : Int) :
    (armTimer (clearExistingTimer s k) k d).timers.filter (fun e => !(e.1 == k))
      = s.timers.filter (fun e => !(e.1 == k)) := by
  simp [armTimer, clearExistingTimer, List.filter_cons, filter_ne_key_idem]

theorem filter_eq_arm_clear (s : RegState) (k : String) (d : Int) :
    (armTimer (clearExistingTimer s k) k d).timers.filter (fun e => e.1 == k)
      = [(k, s.nextId, d)] := by
  simp [armTimer, clearExistingTimer, List.filter_cons, filter_eq_key_of_filter_ne]

theorem double_arm_timers (s : RegState) (k : String) (d₁ d₂ : Int) :
    (armTimer (clearExistingTimer (armTimer (clearExistingTimer s k) k d₁) k) k d₂).timers
      = (k, s.nextId + 1, d₂) :: s.timers.filter (fun e => !(e.1 == k)) := by
  simp [armTimer, clearExistingTimer, List.filter_cons, filter_ne_key_idem]

theorem double_arm_cancelled (s : RegState) (k : String) (d₁ d₂ : Int) :
    (armTimer (clearExistingTimer (armTimer (clearExistingTimer s k) k d₁) k) k d₂).cancelled
      = (s.cancelled ++ (s.timers.filter (fun e => e.1 == k)).map (fun e => e.2.1))
          ++ [s.nextId] := by
  simp [armTimer, clearExistingTimer, List.filter_cons, filter_eq_key_of_filter_ne]

theorem any_handle_eq_false (l : List (String × Nat × Int)) (n : Nat)
    (h : ∀ e ∈ l, e.2.1 < n) : (l.any (fun e => e.2.1 == n)) = false := by
  induction l with
  | nil => rfl
  | cons a t ih =>
      simp only [List.any_cons, Bool.or_eq_false_iff]
      constructor
      · have := h a (List.mem_cons_self a t)
        simp only [beq_eq_false_iff_ne]
        omega
      · exact ih fun e he => h e (List.mem_cons_of_mem a he)

theorem filter_nil_of_filter_nil (l : List (String × Nat × Int))
    (p q : (String × Nat × Int) → Bool) (h : l.filter p = []) :
    (l.filter q).filter p = [] := by
  induction l with
  | nil => rfl
  | cons a t ih =>
      cases hpa : p a with
      | true => simp [List.filter_cons, hpa] at h
      | false =>
          simp only [List.filter_cons, hpa, Bool.false_eq_true, if_false] at h
          cases hqa : q a with
          | true => simp [List.filter_cons, hqa, hpa, ih h]
          | false => simp [List.filter_cons, hqa, ih h]

theorem pendingFor_clear_preserve (s : RegState) (k k' : String)
    (h : pendingFor s k = []) : pendingFor (clearExistingTimer s k') k = [] := by
  have h' : s.timers.filter (fun e => e.1 == k) = [] := by
    cases hf : s.timers.filter (fun e => e.1 == k) with
    | nil => rfl
    | cons x xs =>
        rw [pendingFor, hf] at h
        simp at h
  rw [pendingFor, clearExistingTimer]
  rw [filter_nil_of_filter_nil _ _ _ h']
  rfl

theorem disableTypesFold_cons (treeId : String) (tod : Option TimeOfDay) (perm : Bool)
    (now : Int) (s : RegState) (ty : MaintenanceType) (rest : List MaintenanceType) :
    disableTypesFold true treeId tod perm now s (ty :: rest)
      = disableTypesFold true treeId tod perm now
          (clearExistingTimer s (timerKey treeId ty)) rest := rfl

theorem disableTypesFold_preserve (treeId : String) (tod : Option TimeOfDay)
    (perm : Bool) (now : Int) (k : String) :
    ∀ (tys : List MaintenanceType) (s : RegState), pendingFor s k = [] →
      pendingFor (disableTypesFold true treeId tod perm now s tys) k = [] := by
  intro tys
  induction tys with
  | nil => intro s h; exact h
  | cons ty rest ih =>
      intro s h
      rw [disableTypesFold_cons]
      exact ih _ (pendingFor_clear_preserve s k (timerKey treeId ty) h)

theorem disableTypesFold_clears (treeId : String) (tod : Option TimeOfDay)
    (perm : Bool) (now : Int) :
    ∀ (tys : List MaintenanceType) (s : RegState) (ty : MaintenanceType), ty ∈ tys →
      pendingFor (disableTypesFold true treeId tod perm now s tys) (timerKey treeId ty)
        = [] := by
  intro tys
  induction tys with
  | nil => intro s ty h; cases h
  | cons ty₀ rest ih =>
      intro s ty h
      rw [disableTypesFold_cons]
      rcases List.mem_cons.mp h with h | h
      · subst h
        exact disableTypesFold_preserve treeId tod perm now _ rest _ (pendingFor_clear s _)
      · exact ih _ ty h

theorem mem_allMaintenanceTypes (ty : MaintenanceType) : ty ∈ allMaintenanceTypes := by
  cases ty <;> decide

/-! ## Claim theorems -/

/-- C1: for every maintenance type, every `lastPerformed` timestamp (no
matter how far in the past), every time-of-day preference and every current
time `now`, the next-due instant computed when (re)arming a schedule is
strictly greater than `now`. -/
theorem nextDue_future_only (ty : MaintenanceType) (lastPerformed : Option Int)
    (notificationTime : Option TimeOfDay) (now : Int) :
    now < updateNextDue ty lastPerformed notificationTime now :=
  computeNextDue_gt _ _ _ _ (interval_pos ty)

/-- C3: watering (2-day interval) enabled at 2024-01-01T09:00:00 (ms
1704099600000) with no prior history and time-of-day 09:00 yields
`nextDueAt` = 2024-01-03T09:00:00 (ms 1704272400000); the synthesized base
is 2023-12-30T09:00 (ms 1703926800000), one interval from the base lands
exactly on `now`, and the strict-inequality loop boundary pushes the
candidate one more interval into the future. -/
theorem watering_scenario_jan2024 :
    updateNextDue .watering none (some ⟨9, 0⟩) 1704099600000 = 1704272400000 ∧
    snapToTime 1704099600000 ⟨9, 0⟩ - (MAINTENANCE_SCHEDULES .watering).interval
      = 1703926800000 ∧
    (1703926800000 : Int) + (MAINTENANCE_SCHEDULES .watering).interval = 1704099600000 := by
  decide

/-- C4 counterexample: watering enabled with no history at
2024-01-01T08:00:00 (ms 1704096000000) and preferred time 09:00 yields a
next-due instant exactly one hour after `now` — 1/48 of the two-day
interval, not "at least close to one full interval". -/
theorem no_history_one_hour_gap :
    updateNextDue .watering none (some ⟨9, 0⟩) 1704096000000 = 1704096000000 + 3600000 ∧
    (3600000 : Int) * 48 = (MAINTENANCE_SCHEDULES .watering).interval := by
  decide

/-- C4 (amended): for every maintenance type enabled with no `lastPerformed`
history, the computed next-due instant is strictly more than 1000 ms after
`now` (never an immediate fire), but not necessarily close to one full
interval — it is the next strictly-future occurrence of the preferred
time-of-day, plus one interval when that occurrence is within one second. -/
theorem no_history_no_immediate_fire (ty : MaintenanceType)
    (notificationTime : Option TimeOfDay) (now : Int) :
    1000 < updateNextDue ty none notificationTime now - now := by
  have hraw := computeNextDueRaw_gt (MAINTENANCE_SCHEDULES ty).interval none
    notificationTime now (interval_pos ty)
  have hbig := interval_large ty
  simp only [updateNextDue, computeNextDue]
  by_cases hg : computeNextDueRaw (MAINTENANCE_SCHEDULES ty).interval none
      notificationTime now - now ≤ 1000
  · rw [if_pos hg]
    omega
  · rw [if_neg hg]
    omega

/-- C6: the claim is the source's intent (the guard's own log message reads
"Adjusting schedule to prevent immediate notification") but not its
behaviour: `timeUntilNotification` is a `const` computed at line 174,
before the guard, and line 259 passes that pre-guard constant to
`setTimeout`; the guard reassigns only `nextDate`.  At watering, no
history, preferred time 09:00, `now` = 2024-01-01T08:59:59.500 (ms
1704099599500) the candidate is 500 ms away, so the guard triggers — yet
the armed timer still fires 500 ms later, while the guard-adjusted
`nextDate` (one interval later) is only carried into the callback as the
next cycle's `lastPerformed`.  The occurrence fires (nearly) immediately,
not one interval later. -/
theorem guard_leaves_timer_delay :
    ∃ s1,
      updateMaintenanceSchedule true ⟨[], 0, []⟩ "t" .watering true none (some ⟨9, 0⟩)
        true 1704099599500 = Except.ok s1 ∧
      pendingFor s1 (timerKey "t" .watering) = [(0, 1704099600000)] ∧
      (1704099600000 : Int) - 1704099599500 = 500 ∧
      computeNextDueRaw (MAINTENANCE_SCHEDULES .watering).interval none (some ⟨9, 0⟩)
          1704099599500 - 1704099599500 ≤ 1000 ∧
      computeNextDue (MAINTENANCE_SCHEDULES .watering).interval none (some ⟨9, 0⟩)
          1704099599500 = 1704099600000 + (MAINTENANCE_SCHEDULES .watering).interval := by
  refine ⟨_, rfl, ?_, ?_, ?_, ?_⟩ <;> decide

/-- C10: every configured maintenance interval is the strictly positive
constant the table lists (2, 14, 30, 60, 365 and 7 days in milliseconds);
consequently the catch-up loop satisfies the source `while` recurrence as a
total function and always reaches an instant strictly after `now`, for
every finite `now` and starting candidate. -/
theorem schedule_totality :
    ((MAINTENANCE_SCHEDULES .watering).interval = 2 * 24 * 60 * 60 * 1000 ∧
     (MAINTENANCE_SCHEDULES .fertilizing).interval = 14 * 24 * 60 * 60 * 1000 ∧
     (MAINTENANCE_SCHEDULES .pruning).interval = 30 * 24 * 60 * 60 * 1000 ∧
     (MAINTENANCE_SCHEDULES .wiring).interval = 60 * 24 * 60 * 60 * 1000 ∧
     (MAINTENANCE_SCHEDULES .repotting).interval = 365 * 24 * 60 * 60 * 1000 ∧
     (MAINTENANCE_SCHEDULES .other).interval = 7 * 24 * 60 * 60 * 1000) ∧
    (∀ ty : MaintenanceType, 0 < (MAINTENANCE_SCHEDULES ty).interval) ∧
    (∀ (ty : MaintenanceType) (now next : Int),
      catchUpLoop (MAINTENANCE_SCHEDULES ty).interval now next
        = if next ≤ now then
            catchUpLoop (MAINTENANCE_SCHEDULES ty).interval now
              (next + (MAINTENANCE_SCHEDULES ty).interval)
          else next) ∧
    (∀ (ty : MaintenanceType) (now next : Int),
      now < catchUpLoop (MAINTENANCE_SCHEDULES ty).interval now next) :=
  ⟨by decide, interval_pos,
   fun ty now next => catchUpLoop_recurrence _ now next (interval_pos ty),
   fun ty now next => catchUpLoop_gt _ now next (interval_pos ty)⟩

/-- C2: arming a schedule for a key first cancels any previously pending
timer for that key, so two consecutive enabled calls for the same tree and
type leave exactly one pending timer for that key, scheduled at the second
call's instant (the `setTimeout` fire instant, `computeNextDueRaw`); the
first call's handle is cleared (it is in `cancelled` and no longer live, so
its action never fires). -/
theorem single_timer_property (s : RegState) (treeId : String) (ty : MaintenanceType)
    (lp lp' : Option Int) (tod tod' : Option TimeOfDay) (now now' : Int)
    (hfresh : freshIds s = true) :
    ∃ s1 s2,
      updateMaintenanceSchedule true s treeId ty true lp tod true now = Except.ok s1 ∧
      updateMaintenanceSchedule true s1 treeId ty true lp' tod' true now' = Except.ok s2 ∧
      pendingFor s2 (timerKey treeId ty)
        = [(s.nextId + 1,
            computeNextDueRaw (MAINTENANCE_SCHEDULES ty).interval lp' tod' now')] ∧
      handleLive s2 s.nextId = false ∧
      s.nextId ∈ s2.cancelled := by
  refine ⟨_, _, rfl, rfl, ?_, ?_, ?_⟩
  · simp [pendingFor, double_arm_timers, List.filter_cons, filter_eq_key_of_filter_ne]
  · simp only [handleLive, double_arm_timers, List.any_cons, Bool.or_eq_false_iff]
    constructor
    · show (s.nextId + 1 == s.nextId) = false
      simp only [beq_eq_false_iff_ne]
      omega
    · apply any_handle_eq_false
      intro e he
      have hmem := List.mem_of_mem_filter he
      simp only [freshIds, List.all_eq_true, decide_eq_true_eq] at hfresh
      exact hfresh e hmem
  · simp only [double_arm_cancelled]
    simp

/-- Witness for C2: two enabled calls from the empty registry. -/
theorem single_timer_property_witness :
    freshIds ⟨[], 0, []⟩ = true ∧
    (∃ s1 s2,
      updateMaintenanceSchedule true ⟨[], 0, []⟩ "t" .watering true none none true 0
        = Except.ok s1 ∧
      updateMaintenanceSchedule true s1 "t" .watering true none none true 0
        = Except.ok s2 ∧
      pendingFor s2 (timerKey "t" .watering)
        = [(RegState.nextId ⟨[], 0, []⟩ + 1,
            computeNextDueRaw (MAINTENANCE_SCHEDULES .watering).interval none none 0)] ∧
      handleLive s2 (RegState.nextId ⟨[], 0, []⟩) = false ∧
      RegState.nextId ⟨[], 0, []⟩ ∈ s2.cancelled) :=
  ⟨by decide,
   single_timer_property ⟨[], 0, []⟩ "t" .watering none none none none 0 0 (by decide)⟩

/-- C8: calling the update entry point with `enabled = false` never throws
(also on a key that was never armed), leaves no pending timer for the key,
and doing it twice in a row returns the very same state the first call
produced. -/
theorem cancel_idempotent (s : RegState) (treeId : String) (ty : MaintenanceType)
    (lastPerformed : Option Int) (notificationTime : Option TimeOfDay)
    (permissionGranted : Bool) (now : Int) :
    ∃ s1,
      updateMaintenanceSchedule true s treeId ty false lastPerformed notificationTime
        permissionGranted now = Except.ok s1 ∧
      updateMaintenanceSchedule true s1 treeId ty false lastPerformed notificationTime
        permissionGranted now = Except.ok s1 ∧
      pendingFor s1 (timerKey treeId ty) = [] := by
  refine ⟨clearExistingTimer s (timerKey treeId ty), rfl, ?_, pendingFor_clear s _⟩
  show Except.ok (clearExistingTimer (clearExistingTimer s (timerKey treeId ty))
      (timerKey treeId ty)) = _
  rw [clear_clear]

/-- C5 counterexample: a timer armed with an expected delay of 10000 ms that
fires immediately (more than 1000 ms early) suppresses the notification but
also skips the re-arm — the next cycle is NOT computed and armed, contrary
to the claim. -/
theorem early_fire_skips_rearm :
    ((0 : Int) < 10000 - 1000) ∧
    (fireCallback 10000 0 true).shown = false ∧
    (fireCallback 10000 0 true).rearmed = false := by
  decide

/-- C5 (amended): whenever an armed occurrence fails to result in a
displayed notification — the timer fired more than 1000 ms early, or the
presentation call threw — the notification for that occurrence is
suppressed AND the re-arm is skipped: the callback re-arms the next cycle
only after a successful presentation. -/
theorem fire_failure_suppresses_and_skips_rearm (expectedDelay actualDelay : Int)
    (presentOk : Bool)
    (h : actualDelay < expectedDelay - 1000 ∨ presentOk = false) :
    (fireCallback expectedDelay actualDelay presentOk).shown = false ∧
    (fireCallback expectedDelay actualDelay presentOk).rearmed = false := by
  unfold fireCallback
  by_cases hearly : actualDelay < expectedDelay - 1000
  · simp [hearly]
  · rcases h with h | h
    · exact absurd h hearly
    · simp [hearly, h]

/-- Witness for C5 (amended): the early-fire input. -/
theorem fire_failure_witness :
    ((0 : Int) < 10000 - 1000 ∨ true = false) ∧
    ((fireCallback 10000 0 true).shown = false ∧
     (fireCallback 10000 0 true).rearmed = false) :=
  ⟨Or.inl (by decide),
   fire_failure_suppresses_and_skips_rearm 10000 0 true (Or.inl (by decide))⟩

/-- C7 counterexample: a registry holding a pending watering timer for tree
`t1` is unchanged by ending the session — `logout` only signs out, and
`clearAllTimers` is never invoked — so the timer is still pending and its
handle still live afterwards, contrary to the claim that sign-out cancels
every session timer. -/
theorem logout_leaves_pending_timer :
    pendingFor (logoutTimerEffect ⟨[(timerKey "t1" .watering, 0, 5)], 1, []⟩)
        (timerKey "t1" .watering) = [(0, 5)] ∧
    handleLive (logoutTimerEffect ⟨[(timerKey "t1" .watering, 0, 5)], 1, []⟩) 0
      = true := by
  decide

/-- C7 (amended): disabling a maintenance type cancels that key's pending
timer synchronously (the disable path never throws and leaves the key
unarmed); deleting a tree through the UI flow (`EditTreeForm.handleDelete`)
first disables every enabled maintenance type, cancelling its pending
timer, before the store's `deleteTree` runs; but ending a session
(sign-out) performs no cancellation at all — `logout` only signs out, and
`clearAllTimers`, which would cancel every pending timer, is private and
never invoked — so timers armed during the session remain pending and can
still fire. -/
theorem cancellation_semantics :
    (∀ (s : RegState) (treeId : String) (ty : MaintenanceType) (lp : Option Int)
        (tod : Option TimeOfDay) (perm : Bool) (now : Int),
      ∃ s1,
        updateMaintenanceSchedule true s treeId ty false lp tod perm now = Except.ok s1 ∧
        pendingFor s1 (timerKey treeId ty) = []) ∧
    (∀ (s : RegState) (treeId : String) (notif : MaintenanceType → Bool)
        (tod : Option TimeOfDay) (perm : Bool) (now : Int) (ty : MaintenanceType),
      notif ty = true →
        pendingFor (handleDeleteFlow true s treeId notif tod perm now)
          (timerKey treeId ty) = []) ∧
    (∀ s : RegState, logoutTimerEffect s = s) ∧
    (∀ (s : RegState) (key : String), pendingFor (clearAllTimers s) key = []) := by
  refine ⟨?_, ?_, fun _ => rfl, fun _ _ => rfl⟩
  · exact fun s treeId ty _ _ _ _ =>
      ⟨clearExistingTimer s (timerKey treeId ty), rfl, pendingFor_clear s _⟩
  · intro s treeId notif tod perm now ty hty
    unfold handleDeleteFlow deleteTreeTimerEffect
    apply disableTypesFold_clears
    exact List.mem_filter.mpr ⟨mem_allMaintenanceTypes ty, hty⟩

/-- Witness for C7 (amended): the deletion flow for a tree whose every
maintenance type is enabled cancels its pending watering timer. -/
theorem cancellation_semantics_witness :
    ((fun _ : MaintenanceType => true) MaintenanceType.watering = true) ∧
    pendingFor
      (handleDeleteFlow true ⟨[(timerKey "t1" .watering, 0, 5)], 1, []⟩ "t1"
        (fun _ => true) none true 0)
      (timerKey "t1" .watering) = [] :=
  ⟨rfl,
   cancellation_semantics.2.1 ⟨[(timerKey "t1" .watering, 0, 5)], 1, []⟩ "t1"
     (fun _ => true) none true 0 .watering rfl⟩

/-- C9 counterexample: snoozing a watering notification that carries a body
and a `{ treeId, type }` payload does NOT re-present the same notification
with only the fire time changed: the spread of the nonexistent
`notification.options` drops the body and the data payload (and with them
the action buttons), so the re-shown notification differs from the original
in more than its trigger. -/
theorem snooze_not_same_notification :
    (notificationClick
        ⟨"Bonsai Maintenance: My Tree", "t1-watering",
         "Time to check if your bonsai needs water", some ("t1", .watering), none⟩
        "snooze" 0).1
      ≠ [{ (⟨"Bonsai Maintenance: My Tree", "t1-watering",
            "Time to check if your bonsai needs water", some ("t1", .watering),
            none⟩ : SWNotification) with
          showTriggerAt := some (0 + 60 * 60 * 1000) }] := by
  decide

/-- C9 (amended): clicking "Snooze 1hr" re-presents a notification with the
same title and the same tag (key), triggered at `now + 1 hour`, but —
because the handler spreads `notification.options`, which is undefined on a
`Notification` — the re-shown notification loses the body, the
`{ treeId, type }` data payload and the action buttons.  No client message
is posted, so the store's `lastPerformed` map is untouched and a later
natural "done" completion still computes from the original `lastPerformed`,
not the snooze time. -/
theorem snooze_rearm_only (n : SWNotification) (now : Int) :
    notificationClick n "snooze" now
      = ([⟨n.title, n.tag, "", none, some (now + 60 * 60 * 1000)⟩], []) ∧
    (∀ (store : String → Option Int) (completedAt : Int),
      applyWorkerMessages store completedAt (notificationClick n "snooze" now).2 = store) :=
  ⟨rfl, fun _ _ => rfl⟩

end BonsaiApp
